import Mathlib

set_option maxRecDepth 8192

/-!
Shallow embedding of the control core of the Sony IMX415 sensor driver
(src/modules/imx415/imx415.c) and verification of its specification.

Modelling conventions:
* Register addresses and byte values are `Nat`; 32-bit C arithmetic is made
  explicit with `% 2^32` where wrap-around is possible.
* The I2C transport, the runtime-PM state and the register file are abstracted
  into a `Bus` of injected return codes and read values; every operation
  returns its C `int` result (`Int`), the successor device state, and the
  ordered trace of single-byte register writes it issued.
* `struct imx415` is embedded with exactly the fields the mode / control /
  streaming logic reads or writes (`cur_mode`, `cur_vts`, `streaming`, the
  runtime-PM activity bit, and the exposure / v-blank control state); bus and
  framework handles are abstracted away.
-/

namespace IMX415

/-- Register address / byte value pair, `struct imx415_regval` (imx415.c:135). -/
structure Regval where
  reg : Nat
  val : Nat
deriving DecidableEq

/-- Frame-interval fraction, `struct v4l2_fract`. -/
structure Fract where
  numerator : Nat
  denominator : Nat
deriving DecidableEq

/-- Catalog entry, `struct imx415_mode` (imx415.c:141).  `data_size` is
`ARRAY_SIZE(reg_list)` in the source and is represented by the list length. -/
structure ImxMode where
  bus_fmt : Nat
  width : Nat
  height : Nat
  max_fps : Fract
  hts_def : Nat
  vts_def : Nat
  exp_def : Nat
  mipi_freq_idx : Nat
  bpp : Nat
  reg_list : List Regval
deriving DecidableEq

/-- Constants from imx415.c:35-123. -/
def IMX415_REG_CHIP_ID : Nat := 0x311A

def IMX415_CHIP_ID : Nat := 0xE0

def IMX415_REG_STANDBY : Nat := 0x3000

def IMX415_REG_LANE_MODE : Nat := 0x4001

def IMX415_LF_GAIN_REG_H : Nat := 0x3091

def IMX415_LF_GAIN_REG_L : Nat := 0x3090

def IMX415_LF_EXPO_REG_H : Nat := 0x3052

def IMX415_LF_EXPO_REG_M : Nat := 0x3051

def IMX415_LF_EXPO_REG_L : Nat := 0x3050

def IMX415_EXPOSURE_MIN : Nat := 8

def IMX415_VTS_MAX : Nat := 0x7fff

def IMX415_GAIN_MIN : Nat := 0x00

def IMX415_GAIN_MAX : Nat := 0xf0

def IMX415_VTS_REG_L : Nat := 0x3024

def IMX415_VTS_REG_M : Nat := 0x3025

def IMX415_VTS_REG_H : Nat := 0x3026

/-- BIT(0) (imx415.c:100). -/
def IMX415_MIRROR_BIT_MASK : Nat := 1

/-- BIT(1) (imx415.c:101). -/
def IMX415_FLIP_BIT_MASK : Nat := 2

def IMX415_FLIP_REG : Nat := 0x3030

def REG_NULL : Nat := 0xFFFF

/-- Kernel media-bus code MEDIA_BUS_FMT_SGBRG10_1X10; used only as an opaque
pixel-format tag, the numeric value itself is immaterial to the logic. -/
def MEDIA_BUS_FMT_SGBRG10_1X10 : Nat := 0x300e

/-- Truncation to the C `u32` range. -/
def u32 (n : Nat) : Nat := n % 4294967296

/-- C `u32` subtraction `a - b` (wraps modulo 2^32). -/
def u32sub (a b : Nat) : Nat := (a % 4294967296 + 4294967296 - b % 4294967296) % 4294967296

/-- IMX415_FETCH_GAIN_H (imx415.c:78): bits 8-10 of the gain value. -/
def IMX415_FETCH_GAIN_H (v : Nat) : Nat := (v >>> 8) &&& 0x07

/-- IMX415_FETCH_GAIN_L (imx415.c:79). -/
def IMX415_FETCH_GAIN_L (v : Nat) : Nat := v &&& 0xFF

/-- IMX415_FETCH_EXP_H (imx415.c:81): bits 16-19 of the shutter value. -/
def IMX415_FETCH_EXP_H (v : Nat) : Nat := (v >>> 16) &&& 0x0F

/-- IMX415_FETCH_EXP_M (imx415.c:82). -/
def IMX415_FETCH_EXP_M (v : Nat) : Nat := (v >>> 8) &&& 0xFF

/-- IMX415_FETCH_EXP_L (imx415.c:83). -/
def IMX415_FETCH_EXP_L (v : Nat) : Nat := v &&& 0xFF

/-- IMX415_FETCH_VTS_H (imx415.c:89). -/
def IMX415_FETCH_VTS_H (v : Nat) : Nat := (v >>> 16) &&& 0x0F

/-- IMX415_FETCH_VTS_M (imx415.c:90). -/
def IMX415_FETCH_VTS_M (v : Nat) : Nat := (v >>> 8) &&& 0xFF

/-- IMX415_FETCH_VTS_L (imx415.c:91). -/
def IMX415_FETCH_VTS_L (v : Nat) : Nat := v &&& 0xFF

/-- Abstraction of the I2C transport and of runtime PM: `writeRet reg val` is
the `int` code a single-byte write of `val` to `reg` comes back with,
`readRet reg` / `readVal reg` the code and raw value of a single-byte read,
and `pmGetSync` the value `pm_runtime_get_sync` returns in `imx415_s_stream`. -/
structure Bus where
  writeRet : Nat → Nat → Int
  readRet : Nat → Int
  readVal : Nat → Nat
  pmGetSync : Int

/-- imx415_write_reg (imx415.c:416) for the single-byte writes the control and
streaming paths issue: the transport's code, plus the one-element write trace. -/
def imx415_write_reg (bus : Bus) (reg val : Nat) : Int × List (Nat × Nat) :=
  (bus.writeRet reg val, [(reg, val)])

/-- imx415_read_reg (imx415.c:381) for a single-byte read: a 1-byte transfer
lands in the low byte of the big-endian accumulator, so the value is < 256. -/
def imx415_read_reg (bus : Bus) (reg : Nat) : Int × Nat :=
  (bus.readRet reg, bus.readVal reg % 256)

/-- imx415_write_array (imx415.c:444): single-byte writes in table order while
the previous write succeeded and the entry is not the REG_NULL sentinel.
The C array is represented by the list of entries up to and including its
sentinel; an exhausted list ends the walk like a sentinel does. -/
def imx415_write_array (bus : Bus) : List Regval → Int × List (Nat × Nat)
  | [] => (0, [])
  | r :: rest =>
      if r.reg = REG_NULL then (0, [])
      else
        let w := imx415_write_reg bus r.reg r.val
        if w.1 = 0 then
          let p := imx415_write_array bus rest
          (p.1, w.2 ++ p.2)
        else (w.1, w.2)

/-- imx415_common_regs (imx415.c:215).  Note the C array has no REG_NULL
terminator entry; the list models exactly the declared entries. -/
def imx415_common_regs : List Regval := [
  ⟨0x32D4, 0x21⟩, ⟨0x32EC, 0xA1⟩, ⟨0x3452, 0x7F⟩, ⟨0x3453, 0x03⟩,
  ⟨0x358A, 0x04⟩, ⟨0x35A1, 0x02⟩, ⟨0x36BC, 0x0C⟩, ⟨0x36CC, 0x53⟩,
  ⟨0x36CD, 0x00⟩, ⟨0x36CE, 0x3C⟩, ⟨0x36D0, 0x8C⟩, ⟨0x36D1, 0x00⟩,
  ⟨0x36D2, 0x71⟩, ⟨0x36D4, 0x3C⟩, ⟨0x36D6, 0x53⟩, ⟨0x36D7, 0x00⟩,
  ⟨0x36D8, 0x71⟩, ⟨0x36DA, 0x8C⟩, ⟨0x36DB, 0x00⟩, ⟨0x3701, 0x00⟩,
  ⟨0x3724, 0x02⟩, ⟨0x3726, 0x02⟩, ⟨0x3732, 0x02⟩, ⟨0x3734, 0x03⟩,
  ⟨0x3736, 0x03⟩, ⟨0x3742, 0x03⟩, ⟨0x3862, 0xE0⟩, ⟨0x38CC, 0x30⟩,
  ⟨0x38CD, 0x2F⟩, ⟨0x395C, 0x0C⟩, ⟨0x3A42, 0xD1⟩, ⟨0x3A4C, 0x77⟩,
  ⟨0x3AE0, 0x02⟩, ⟨0x3AEC, 0x0C⟩, ⟨0x3B00, 0x2E⟩, ⟨0x3B06, 0x29⟩,
  ⟨0x3B98, 0x25⟩, ⟨0x3B99, 0x21⟩, ⟨0x3B9B, 0x13⟩, ⟨0x3B9C, 0x13⟩,
  ⟨0x3B9D, 0x13⟩, ⟨0x3B9E, 0x13⟩, ⟨0x3BA1, 0x00⟩, ⟨0x3BA2, 0x06⟩,
  ⟨0x3BA3, 0x0B⟩, ⟨0x3BA4, 0x10⟩, ⟨0x3BA5, 0x14⟩, ⟨0x3BA6, 0x18⟩,
  ⟨0x3BA7, 0x1A⟩, ⟨0x3BA8, 0x1A⟩, ⟨0x3BA9, 0x1A⟩, ⟨0x3BAC, 0xED⟩,
  ⟨0x3BAD, 0x01⟩, ⟨0x3BAE, 0xF6⟩, ⟨0x3BAF, 0x02⟩, ⟨0x3BB0, 0xA2⟩,
  ⟨0x3BB1, 0x03⟩, ⟨0x3BB2, 0xE0⟩, ⟨0x3BB3, 0x03⟩, ⟨0x3BB4, 0xE0⟩,
  ⟨0x3BB5, 0x03⟩, ⟨0x3BB6, 0xE0⟩, ⟨0x3BB7, 0x03⟩, ⟨0x3BB8, 0xE0⟩,
  ⟨0x3BBA, 0xE0⟩, ⟨0x3BBC, 0xDA⟩, ⟨0x3BBE, 0x88⟩, ⟨0x3BC0, 0x44⟩,
  ⟨0x3BC2, 0x7B⟩, ⟨0x3BC4, 0xA2⟩, ⟨0x3BC8, 0xBD⟩, ⟨0x3BCA, 0xBD⟩]

/-- imx415_linear_10bit_3864x2192_891M_regs (imx415.c:290), including its
REG_NULL sentinel entry. -/
def imx415_linear_10bit_3864x2192_891M_regs : List Regval := [
  ⟨0x3002, 0x00⟩, ⟨0x3008, 0x7F⟩, ⟨0x300A, 0x5B⟩, ⟨0x3028, 0x98⟩,
  ⟨0x3029, 0x08⟩, ⟨0x3031, 0x00⟩, ⟨0x3032, 0x00⟩, ⟨0x3033, 0x05⟩,
  ⟨0x3050, 0x08⟩, ⟨0x30C1, 0x00⟩, ⟨0x3116, 0x24⟩, ⟨0x311E, 0x24⟩,
  ⟨0x4004, 0x48⟩, ⟨0x4005, 0x09⟩, ⟨0x400C, 0x00⟩, ⟨0x4018, 0x7F⟩,
  ⟨0x401A, 0x37⟩, ⟨0x401C, 0x37⟩, ⟨0x401E, 0xF7⟩, ⟨0x401F, 0x00⟩,
  ⟨0x4020, 0x3F⟩, ⟨0x4022, 0x6F⟩, ⟨0x4024, 0x3F⟩, ⟨0x4026, 0x5F⟩,
  ⟨0x4028, 0x2F⟩, ⟨0x4074, 0x01⟩, ⟨REG_NULL, 0x00⟩]

/-- The single populated entry of `supported_modes` (imx415.c:356). -/
def imx415_mode_3864x2192 : ImxMode := {
  bus_fmt := MEDIA_BUS_FMT_SGBRG10_1X10
  width := 3864
  height := 2192
  max_fps := ⟨10000, 300000⟩
  hts_def := 0x044c * 2 * 2
  vts_def := 0x08fc
  exp_def := 0x08fc - 0x08
  mipi_freq_idx := 0
  bpp := 10
  reg_list := imx415_linear_10bit_3864x2192_891M_regs }

/-- supported_modes (imx415.c:356): the compiled-in mode catalog. -/
def supported_modes : List ImxMode := [imx415_mode_3864x2192]

/-- Requested format, the fields of `struct v4l2_mbus_framefmt` that
`imx415_find_best_fit` reads. -/
structure Framefmt where
  width : Nat
  height : Nat
  code : Nat
deriving DecidableEq

/-- Two's-complement wrap of an integer into the `signed int` range
[-2^31, 2^31). -/
def s32wrap (x : Int) : Int := (x + 2147483648) % 4294967296 - 2147483648

/-- Reinterpretation of a `u32` bit pattern as a `signed int`. -/
def s32ofU32 (n : Nat) : Int :=
  if n % 4294967296 < 2147483648 then (n % 4294967296 : Int)
  else (n % 4294967296 : Int) - 4294967296

/-- Kernel `abs()` on a `signed int`: `__x < 0 ? -__x : __x`, where the
negation of INT_MIN wraps back to INT_MIN in two's complement. -/
def abs32 (x : Int) : Int := if x < 0 then s32wrap (-x) else x

/-- C `int` addition (wraps in two's complement). -/
def add32 (a b : Int) : Int := s32wrap (a + b)

/-- imx415_get_reso_dist (imx415.c:457): `abs(mode->width - framefmt->width) +
abs(mode->height - framefmt->height)`.  The subtractions are `u32` and wrap;
kernel `abs()` selects its `signed int` branch for a u32 argument, so each
wrapped difference is reinterpreted as a signed int before taking the absolute
value, and the two results are added as `int`.  For differences below 2^31
this is the exact Manhattan distance; for larger differences it is not. -/
def imx415_get_reso_dist (mode : ImxMode) (f : Framefmt) : Int :=
  add32 (abs32 (s32ofU32 (u32sub mode.width f.width)))
    (abs32 (s32ofU32 (u32sub mode.height f.height)))

/-- Loop of imx415_find_best_fit (imx415.c:473-480): `i` is the index of the
head of the remaining list, `best` is `cur_best_fit`, `bestDist` is the `int`
`cur_best_fit_dist`, initially -1; the entry is taken when
`(cur_best_fit_dist == -1 || dist <= cur_best_fit_dist)` and its format tag
matches the request. -/
def imx415_find_best_fit_go (f : Framefmt) : List ImxMode → Nat → Nat → Int → Nat
  | [], _, best, _ => best
  | m :: rest, i, best, bestDist =>
      let dist := imx415_get_reso_dist m f
      if (bestDist = -1 ∨ dist ≤ bestDist) ∧ m.bus_fmt = f.code then
        imx415_find_best_fit_go f rest (i + 1) i dist
      else imx415_find_best_fit_go f rest (i + 1) best bestDist

/-- imx415_find_best_fit (imx415.c:464): returns the index of the chosen
catalog entry (the C returns `&supported_modes[cur_best_fit]`).  The `catalog`
argument stands for `supported_modes[0 .. imx415->cfg_num)`. -/
def imx415_find_best_fit (catalog : List ImxMode) (f : Framefmt) : Nat :=
  imx415_find_best_fit_go f catalog 0 0 (-1)

/-- Positional lookup in a mode list (plumbing for stating catalog-index
properties). -/
def nthMode : List ImxMode → Nat → Option ImxMode
  | [], _ => none
  | m :: _, 0 => some m
  | _ :: rest, n + 1 => nthMode rest n

/-- State of one v4l2 control as the driver and framework see it: the range,
the step, the default, and the currently stored value. -/
structure Ctrl where
  minimum : Nat
  maximum : Nat
  step : Nat
  default_value : Nat
  val : Nat
deriving DecidableEq

/-- Modelled from the spec: `__v4l2_ctrl_modify_range` is v4l2 framework code
outside this repository.  Per the spec it installs the new range and clamps
the currently stored control value into it, in particular clamping it down to
the new maximum when it exceeds it. -/
def v4l2_ctrl_modify_range (c : Ctrl) (min_ max_ step_ def_ : Nat) : Ctrl :=
  { minimum := min_, maximum := max_, step := step_, default_value := def_,
    val := if max_ < c.val then max_ else if c.val < min_ then min_ else c.val }

/-- Mutable device session, the fields of `struct imx415` (imx415.c:156) that
the mode / control / streaming logic reads or writes.  `powered` is the
runtime-PM activity the `pm_runtime_get` family reports. -/
structure Imx415 where
  cur_mode : ImxMode
  cur_vts : Nat
  streaming : Bool
  powered : Bool
  exposure : Ctrl
  vblank : Ctrl
deriving DecidableEq

/-- Control ids handled by imx415_set_ctrl's switches (imx415.c:885,899). -/
inductive CtrlId where
  | EXPOSURE
  | ANALOGUE_GAIN
  | VBLANK
  | HFLIP
  | VFLIP
deriving DecidableEq

/-- imx415_set_ctrl (imx415.c:875): `v` is `ctrl->val`, already clamped into
the control's range by the v4l2 framework.  The source has two switches on
the control id: the first re-derives the exposure range from a new v-blank
value before the runtime-PM check, the second performs the hardware writes
only when the device is powered (`pm_runtime_get(...) <= 0` returns 0 without
touching registers).  Here both switches are fused into one match on the id;
the first switch only has a VBLANK case, so every other arm goes straight to
the powered check. -/
def imx415_set_ctrl (bus : Bus) (s : Imx415) : CtrlId → Nat → Int × Imx415 × List (Nat × Nat)
  | CtrlId.EXPOSURE, v =>
      if s.powered then
        let shr0 := u32sub s.cur_vts v
        let w1 := imx415_write_reg bus IMX415_LF_EXPO_REG_L (IMX415_FETCH_EXP_L shr0)
        let w2 := imx415_write_reg bus IMX415_LF_EXPO_REG_M (IMX415_FETCH_EXP_M shr0)
        let w3 := imx415_write_reg bus IMX415_LF_EXPO_REG_H (IMX415_FETCH_EXP_H shr0)
        (Int.lor (Int.lor w1.1 w2.1) w3.1, s, w1.2 ++ w2.2 ++ w3.2)
      else (0, s, [])
  | CtrlId.ANALOGUE_GAIN, v =>
      if s.powered then
        let w1 := imx415_write_reg bus IMX415_LF_GAIN_REG_H (IMX415_FETCH_GAIN_H v)
        let w2 := imx415_write_reg bus IMX415_LF_GAIN_REG_L (IMX415_FETCH_GAIN_L v)
        (Int.lor w1.1 w2.1, s, w1.2 ++ w2.2)
      else (0, s, [])
  | CtrlId.VBLANK, v =>
      let s1 := { s with exposure := v4l2_ctrl_modify_range s.exposure s.exposure.minimum (s.cur_mode.height + v - 4) s.exposure.step s.exposure.default_value }
      if s1.powered then
        let vts := u32 (v + s1.cur_mode.height)
        let s2 := { s1 with cur_vts := vts }
        let w1 := imx415_write_reg bus IMX415_VTS_REG_L (IMX415_FETCH_VTS_L vts)
        let w2 := imx415_write_reg bus IMX415_VTS_REG_M (IMX415_FETCH_VTS_M vts)
        let w3 := imx415_write_reg bus IMX415_VTS_REG_H (IMX415_FETCH_VTS_H vts)
        (Int.lor (Int.lor w1.1 w2.1) w3.1, s2, w1.2 ++ w2.2 ++ w3.2)
      else (0, s1, [])
  | CtrlId.HFLIP, v =>
      if s.powered then
        let r := imx415_read_reg bus IMX415_FLIP_REG
        if r.1 ≠ 0 then (r.1, s, [])
        else
          let newval := if v ≠ 0 then r.2 ||| IMX415_MIRROR_BIT_MASK
                        else r.2 &&& 0xFFFFFFFE
          let w := imx415_write_reg bus IMX415_FLIP_REG newval
          (w.1, s, w.2)
      else (0, s, [])
  | CtrlId.VFLIP, v =>
      if s.powered then
        let r := imx415_read_reg bus IMX415_FLIP_REG
        if r.1 ≠ 0 then (r.1, s, [])
        else
          let newval := if v ≠ 0 then r.2 ||| IMX415_FLIP_BIT_MASK
                        else r.2 &&& 0xFFFFFFFD
          let w := imx415_write_reg bus IMX415_FLIP_REG newval
          (w.1, s, w.2)
      else (0, s, [])

/-- __imx415_start_stream (imx415.c:763): common table, mode table, then the
standby bit is cleared; the first failure aborts and is returned. -/
def imx415_do_start_stream (bus : Bus) (s : Imx415) : Int × List (Nat × Nat) :=
  let p1 := imx415_write_array bus imx415_common_regs
  if p1.1 ≠ 0 then p1
  else
    let p2 := imx415_write_array bus s.cur_mode.reg_list
    if p2.1 ≠ 0 then (p2.1, p1.2 ++ p2.2)
    else
      let w := imx415_write_reg bus IMX415_REG_STANDBY 0
      (w.1, p1.2 ++ p2.2 ++ w.2)

/-- __imx415_stop_stream (imx415.c:779): set the standby bit. -/
def imx415_do_stop_stream (bus : Bus) : Int × List (Nat × Nat) :=
  imx415_write_reg bus IMX415_REG_STANDBY 1

/-- imx415_s_stream (imx415.c:785): `on_` is the normalized `!!on`.  A request
matching the current streaming flag returns 0 untouched; a failing start
leaves the flag clear and surfaces the error; stop ignores the write's result. -/
def imx415_s_stream (bus : Bus) (s : Imx415) (on_ : Bool) : Int × Imx415 × List (Nat × Nat) :=
  if on_ = s.streaming then (0, s, [])
  else if on_ then
    if bus.pmGetSync < 0 then (bus.pmGetSync, s, [])
    else
      let p := imx415_do_start_stream bus s
      if p.1 ≠ 0 then (p.1, s, p.2)
      else (0, { s with streaming := true }, p.2)
  else
    let p := imx415_do_stop_stream bus
    (0, { s with streaming := false }, p.2)

/-- Transport on which every register access succeeds. -/
def busOK : Bus := ⟨fun _ _ => 0, fun _ => 0, fun _ => 0, 0⟩

/-- Transport on which every register write fails with -EIO (-5). -/
def busFail : Bus := ⟨fun _ _ => -5, fun _ => 0, fun _ => 0, 0⟩

/-- Transport on which every register read fails with -EIO (-5). -/
def busReadFail : Bus := ⟨fun _ _ => 0, fun _ => -5, fun _ => 0, 0⟩

/-- A powered, non-streaming session on the default mode, with the control
state probe derives from it (imx415.c:1161-1174). -/
def s0 : Imx415 := {
  cur_mode := imx415_mode_3864x2192
  cur_vts := 2300
  streaming := false
  powered := true
  exposure := { minimum := 8, maximum := 2296, step := 1, default_value := 2292, val := 2292 }
  vblank := { minimum := 108, maximum := 30575, step := 1, default_value := 108, val := 108 } }

/-- The session `s0` with runtime PM inactive. -/
def sPowerOff : Imx415 := { s0 with powered := false }

/-- The session `s0` with a stored exposure value above any realistic maximum. -/
def sHighExp : Imx415 := { s0 with exposure := { s0.exposure with val := 5000 } }

/-- Two-entry catalog exercising the tie-break of the best-fit search:
both entries match the format and lie at the same Manhattan distance from
`cexFmt`. -/
def cexA : ImxMode := {
  bus_fmt := MEDIA_BUS_FMT_SGBRG10_1X10, width := 3864, height := 2192,
  max_fps := ⟨10000, 300000⟩, hts_def := 4400, vts_def := 2300, exp_def := 2292,
  mipi_freq_idx := 0, bpp := 10, reg_list := [] }

/-- Second catalog entry for the tie-break counterexample. -/
def cexB : ImxMode := { cexA with width := 3866, height := 2190 }

/-- Tie-break counterexample catalog. -/
def cexCatalog : List ImxMode := [cexA, cexB]

/-- Requested format equidistant from `cexA` and `cexB`. -/
def cexFmt : Framefmt := ⟨3865, 2191, MEDIA_BUS_FMT_SGBRG10_1X10⟩

/-- Catalog entry at width 0 for the wrapped-distance counterexample. -/
def cexWide0 : ImxMode := { cexA with width := 0, height := 0 }

/-- Catalog entry at width 3000000000 for the wrapped-distance counterexample. -/
def cexWide1 : ImxMode := { cexA with width := 3000000000, height := 0 }

/-- Request at the maximal u32 width: its u32 difference from `cexWide0` wraps
to 1, so the driver prefers `cexWide0` although `cexWide1` is the Manhattan
minimizer. -/
def cexWideFmt : Framefmt := ⟨4294967295, 0, MEDIA_BUS_FMT_SGBRG10_1X10⟩

/-- Two-entry table (one payload write, then the sentinel) for witnesses. -/
def regsW : List Regval := [⟨0x3000, 1⟩, ⟨REG_NULL, 0⟩]

/-- Invariant of the best-fit loop after it has scanned the prefix `pre` of
the catalog: the sentinel -1 means no entry so far matched the requested
format, and any other value means `best` indexes the last of the matching
entries scanned so far that achieve the minimal driver distance `bd`. -/
def DistInv (f : Framefmt) (pre : List ImxMode) (best : Nat) (bd : Int) : Prop :=
  if bd = -1 then ∀ m ∈ pre, m.bus_fmt ≠ f.code
  else
    ∃ mb, nthMode pre best = some mb ∧ mb.bus_fmt = f.code ∧
      imx415_get_reso_dist mb f = bd ∧
      ∀ j mj, nthMode pre j = some mj → mj.bus_fmt = f.code →
        bd ≤ imx415_get_reso_dist mj f ∧ (imx415_get_reso_dist mj f = bd → j ≤ best)

/-! Helper lemmas. -/

/-- Truncation is the identity below 2^32. -/
lemma u32_of_lt (n : Nat) (h : n < 4294967296) : u32 n = n := Nat.mod_eq_of_lt h

/-- C u32 subtraction agrees with Nat subtraction when it cannot wrap. -/
lemma u32sub_of_le (a b : Nat) (hb : b ≤ a) (ha : a < 4294967296) :
    u32sub a b = a - b := by
  unfold u32sub
  omega

/-- Bit behaviour of the mirror-bit read-modify-write on a byte. -/
lemma hflip_bit_facts : ∀ o : Nat, o < 256 →
    (o ||| 1) % 2 = 1 ∧ (o ||| 1) >>> 1 = o >>> 1 ∧
    (o &&& 0xFFFFFFFE) % 2 = 0 ∧ (o &&& 0xFFFFFFFE) >>> 1 = o >>> 1 := by
  decide

/-- Bit behaviour of the flip-bit read-modify-write on a byte. -/
lemma vflip_bit_facts : ∀ o : Nat, o < 256 →
    (o ||| 2) &&& 2 = 2 ∧ (o ||| 2) % 2 = o % 2 ∧ (o ||| 2) >>> 2 = o >>> 2 ∧
    (o &&& 0xFFFFFFFD) &&& 2 = 0 ∧ (o &&& 0xFFFFFFFD) % 2 = o % 2 ∧
    (o &&& 0xFFFFFFFD) >>> 2 = o >>> 2 := by
  decide

/-! Claim theorems. -/

/-- C9: every mode in the compiled-in catalog satisfies
`hts_default ≥ width`, `vts_default ≥ height`,
`exposure_default < vts_default - 4`, and has even width and height. -/
theorem supported_modes_invariants :
    ∀ m ∈ supported_modes, m.width ≤ m.hts_def ∧ m.height ≤ m.vts_def ∧
      m.exp_def < m.vts_def - 4 ∧ m.width % 2 = 0 ∧ m.height % 2 = 0 := by
  decide

/-- Witness for C9 at the catalog's single populated entry. -/
theorem supported_modes_invariants_witness :
    imx415_mode_3864x2192.width ≤ imx415_mode_3864x2192.hts_def ∧
    imx415_mode_3864x2192.height ≤ imx415_mode_3864x2192.vts_def ∧
    imx415_mode_3864x2192.exp_def < imx415_mode_3864x2192.vts_def - 4 ∧
    imx415_mode_3864x2192.width % 2 = 0 ∧ imx415_mode_3864x2192.height % 2 = 0 :=
  supported_modes_invariants imx415_mode_3864x2192 (by decide)

/-- C7: a stream request equal to the current streaming state (start while
streaming, or stop while in standby) performs no register access, leaves the
session unchanged, and returns success. -/
theorem s_stream_same_state_noop (bus : Bus) (s : Imx415) (on_ : Bool)
    (h : on_ = s.streaming) :
    imx415_s_stream bus s on_ = (0, s, []) := by
  simp [imx415_s_stream, h]

/-- Witness for C7: stopping while already in standby is a successful no-op. -/
theorem s_stream_same_state_noop_witness :
    imx415_s_stream busOK s0 false = (0, s0, []) :=
  s_stream_same_state_noop busOK s0 false (by decide)

/-- C1: after a set_vblank(v) call with v inside the current v-blank range,
the exposure maximum is recomputed to `mode.height + v - 4`, and a stored
exposure value exceeding the new maximum is clamped down to it. -/
theorem set_vblank_updates_exposure_range (bus : Bus) (s : Imx415) (v : Nat)
    (h1 : s.vblank.minimum ≤ v) (h2 : v ≤ s.vblank.maximum) :
    (imx415_set_ctrl bus s CtrlId.VBLANK v).2.1.exposure.maximum
        = s.cur_mode.height + v - 4 ∧
    (s.cur_mode.height + v - 4 < s.exposure.val →
      (imx415_set_ctrl bus s CtrlId.VBLANK v).2.1.exposure.val
        = s.cur_mode.height + v - 4) := by
  constructor
  · cases hp : s.powered <;>
      simp [imx415_set_ctrl, v4l2_ctrl_modify_range, hp]
  · intro hgt
    cases hp : s.powered <;>
      simp [imx415_set_ctrl, v4l2_ctrl_modify_range, hp, hgt]

/-- Witness for C1: v-blank 108 on the default mode caps exposure at 2296 and
clamps a stored exposure of 5000 down to 2296. -/
theorem set_vblank_updates_exposure_range_witness :
    (imx415_set_ctrl busOK sHighExp CtrlId.VBLANK 108).2.1.exposure.maximum = 2296 ∧
    (imx415_set_ctrl busOK sHighExp CtrlId.VBLANK 108).2.1.exposure.val = 2296 := by
  have h := set_vblank_updates_exposure_range busOK sHighExp 108 (by decide) (by decide)
  exact ⟨h.1.trans (by decide), (h.2 (by decide)).trans (by decide)⟩

/-- C3 counterexample: with runtime PM inactive, a set_vblank(200) call on the
default mode returns success yet leaves the stored VTS untouched (the store
only happens on the powered path), refuting the claim for every successful
call. -/
theorem set_vblank_unpowered_cex :
    sPowerOff.vblank.minimum ≤ 200 ∧ 200 ≤ sPowerOff.vblank.maximum ∧
    (imx415_set_ctrl busOK sPowerOff CtrlId.VBLANK 200).1 = 0 ∧
    (imx415_set_ctrl busOK sPowerOff CtrlId.VBLANK 200).2.1.cur_vts
      ≠ 200 + sPowerOff.cur_mode.height := by
  decide

/-- C3 (amended): a set_vblank(v) call made while the device is powered stores
`v + mode.height` as the session's current VTS before the three VTS sub-writes
are issued; a partial sub-write failure is reported in the return code, and
the stored VTS is not rolled back. -/
theorem set_vblank_powered_stores_vts (bus : Bus) (s : Imx415) (v : Nat)
    (hp : s.powered = true) (hv : v + s.cur_mode.height < 4294967296)
    (hc : ∀ r w, bus.writeRet r w = 0 ∨ bus.writeRet r w = -5) :
    (imx415_set_ctrl bus s CtrlId.VBLANK v).2.1.cur_vts = v + s.cur_mode.height ∧
    ((imx415_set_ctrl bus s CtrlId.VBLANK v).1 = 0 ↔
      (bus.writeRet IMX415_VTS_REG_L (IMX415_FETCH_VTS_L (v + s.cur_mode.height)) = 0 ∧
       bus.writeRet IMX415_VTS_REG_M (IMX415_FETCH_VTS_M (v + s.cur_mode.height)) = 0 ∧
       bus.writeRet IMX415_VTS_REG_H (IMX415_FETCH_VTS_H (v + s.cur_mode.height)) = 0)) := by
  have hu : u32 (v + s.cur_mode.height) = v + s.cur_mode.height := u32_of_lt _ hv
  constructor
  · simp [imx415_set_ctrl, imx415_write_reg, hp, hu]
  · rcases hc IMX415_VTS_REG_L (IMX415_FETCH_VTS_L (v + s.cur_mode.height)) with hL | hL <;>
    rcases hc IMX415_VTS_REG_M (IMX415_FETCH_VTS_M (v + s.cur_mode.height)) with hM | hM <;>
    rcases hc IMX415_VTS_REG_H (IMX415_FETCH_VTS_H (v + s.cur_mode.height)) with hH | hH <;>
    simp [imx415_set_ctrl, imx415_write_reg, hp, hu, hL, hM, hH] <;>
    decide

/-- Witness for C3's amended statement: powered set_vblank(200) stores 2392
even though all three VTS sub-writes fail, and the failure is reported. -/
theorem set_vblank_powered_stores_vts_witness :
    (imx415_set_ctrl busFail s0 CtrlId.VBLANK 200).2.1.cur_vts = 2392 ∧
    (imx415_set_ctrl busFail s0 CtrlId.VBLANK 200).1 ≠ 0 := by
  have h := set_vblank_powered_stores_vts busFail s0 200 (by decide) (by decide)
      (fun _ _ => Or.inr rfl)
  refine ⟨h.1.trans (by decide), fun h0 => ?_⟩
  exact absurd (h.2.mp h0).1 (by decide)

/-- C5: for an exposure value accepted by the exposure setter on a consistent
powered session, the three bytes written to the exposure registers are the
low, middle and high (bits 16-19) bytes of `shr0 = current_vts - e`. -/
theorem set_exposure_encodes_shr0 (bus : Bus) (s : Imx415) (e : Nat)
    (hp : s.powered = true) (he : e ≤ s.exposure.maximum)
    (hm : s.exposure.maximum + 4 ≤ s.cur_vts) (hv : s.cur_vts < 4294967296) :
    (imx415_set_ctrl bus s CtrlId.EXPOSURE e).2.2 =
      [(IMX415_LF_EXPO_REG_L, (s.cur_vts - e) &&& 0xFF),
       (IMX415_LF_EXPO_REG_M, ((s.cur_vts - e) >>> 8) &&& 0xFF),
       (IMX415_LF_EXPO_REG_H, ((s.cur_vts - e) >>> 16) &&& 0x0F)] := by
  have hu : u32sub s.cur_vts e = s.cur_vts - e := u32sub_of_le _ _ (by omega) hv
  simp [imx415_set_ctrl, imx415_write_reg, hp, hu,
    IMX415_FETCH_EXP_L, IMX415_FETCH_EXP_M, IMX415_FETCH_EXP_H]

/-- Witness for C5: exposure 2292 on the default session writes shr0 = 8 as
bytes (8, 0, 0). -/
theorem set_exposure_encodes_shr0_witness :
    (imx415_set_ctrl busOK s0 CtrlId.EXPOSURE 2292).2.2 =
      [(0x3050, 8), (0x3051, 0), (0x3052, 0)] := by
  have h := set_exposure_encodes_shr0 busOK s0 2292 (by decide) (by decide)
      (by decide) (by decide)
  exact h.trans (by decide)

/-- C4: on the powered path, every multi-byte logical write (20-bit exposure
over three byte offsets, gain over two, 20-bit VTS over three) issues all of
its sub-writes regardless of earlier failures, and the OR-accumulated return
code is zero exactly when every sub-write succeeded. -/
theorem multi_write_attempts_all (bus : Bus) (s : Imx415) (v : Nat)
    (hp : s.powered = true)
    (hc : ∀ r w, bus.writeRet r w = 0 ∨ bus.writeRet r w = -5) :
    (imx415_set_ctrl bus s CtrlId.EXPOSURE v).2.2 =
      [(IMX415_LF_EXPO_REG_L, IMX415_FETCH_EXP_L (u32sub s.cur_vts v)),
       (IMX415_LF_EXPO_REG_M, IMX415_FETCH_EXP_M (u32sub s.cur_vts v)),
       (IMX415_LF_EXPO_REG_H, IMX415_FETCH_EXP_H (u32sub s.cur_vts v))] ∧
    (imx415_set_ctrl bus s CtrlId.ANALOGUE_GAIN v).2.2 =
      [(IMX415_LF_GAIN_REG_H, IMX415_FETCH_GAIN_H v),
       (IMX415_LF_GAIN_REG_L, IMX415_FETCH_GAIN_L v)] ∧
    (imx415_set_ctrl bus s CtrlId.VBLANK v).2.2 =
      [(IMX415_VTS_REG_L, IMX415_FETCH_VTS_L (u32 (v + s.cur_mode.height))),
       (IMX415_VTS_REG_M, IMX415_FETCH_VTS_M (u32 (v + s.cur_mode.height))),
       (IMX415_VTS_REG_H, IMX415_FETCH_VTS_H (u32 (v + s.cur_mode.height)))] ∧
    ((imx415_set_ctrl bus s CtrlId.EXPOSURE v).1 = 0 ↔
      ∀ w ∈ (imx415_set_ctrl bus s CtrlId.EXPOSURE v).2.2, bus.writeRet w.1 w.2 = 0) ∧
    ((imx415_set_ctrl bus s CtrlId.ANALOGUE_GAIN v).1 = 0 ↔
      ∀ w ∈ (imx415_set_ctrl bus s CtrlId.ANALOGUE_GAIN v).2.2, bus.writeRet w.1 w.2 = 0) ∧
    ((imx415_set_ctrl bus s CtrlId.VBLANK v).1 = 0 ↔
      ∀ w ∈ (imx415_set_ctrl bus s CtrlId.VBLANK v).2.2, bus.writeRet w.1 w.2 = 0) := by
  refine ⟨?_, ?_, ?_, ?_, ?_, ?_⟩
  · simp [imx415_set_ctrl, imx415_write_reg, hp]
  · simp [imx415_set_ctrl, imx415_write_reg, hp]
  · simp [imx415_set_ctrl, imx415_write_reg, hp]
  · rcases hc IMX415_LF_EXPO_REG_L (IMX415_FETCH_EXP_L (u32sub s.cur_vts v)) with hL | hL <;>
    rcases hc IMX415_LF_EXPO_REG_M (IMX415_FETCH_EXP_M (u32sub s.cur_vts v)) with hM | hM <;>
    rcases hc IMX415_LF_EXPO_REG_H (IMX415_FETCH_EXP_H (u32sub s.cur_vts v)) with hH | hH <;>
    simp [imx415_set_ctrl, imx415_write_reg, hp, hL, hM, hH] <;> decide
  · rcases hc IMX415_LF_GAIN_REG_H (IMX415_FETCH_GAIN_H v) with hH | hH <;>
    rcases hc IMX415_LF_GAIN_REG_L (IMX415_FETCH_GAIN_L v) with hL | hL <;>
    simp [imx415_set_ctrl, imx415_write_reg, hp, hH, hL] <;> decide
  · rcases hc IMX415_VTS_REG_L (IMX415_FETCH_VTS_L (u32 (v + s.cur_mode.height))) with hL | hL <;>
    rcases hc IMX415_VTS_REG_M (IMX415_FETCH_VTS_M (u32 (v + s.cur_mode.height))) with hM | hM <;>
    rcases hc IMX415_VTS_REG_H (IMX415_FETCH_VTS_H (u32 (v + s.cur_mode.height))) with hH | hH <;>
    simp [imx415_set_ctrl, imx415_write_reg, hp, hL, hM, hH] <;> decide

/-- Witness for C4: on a fault-free transport the exposure setter issues its
three sub-writes and reports success. -/
theorem multi_write_attempts_all_witness :
    (imx415_set_ctrl busOK s0 CtrlId.EXPOSURE 100).2.2 =
      [(0x3050, 152), (0x3051, 8), (0x3052, 0)] ∧
    (imx415_set_ctrl busOK s0 CtrlId.EXPOSURE 100).1 = 0 := by
  have h := multi_write_attempts_all busOK s0 100 (by decide) (fun _ _ => Or.inl rfl)
  exact ⟨h.1.trans (by decide), (h.2.2.2.1).mpr (by decide)⟩

/-- C6: a start request from standby whose register-table phase fails leaves
the session unchanged (in particular the streaming flag stays false) and
surfaces the first failing stage's error: the common table's error if that
table failed, else the mode table's error if that failed, else the
standby-clear write's code. -/
theorem start_stream_failure_keeps_standby (bus : Bus) (s : Imx415)
    (h1 : s.streaming = false) (h2 : 0 ≤ bus.pmGetSync)
    (h3 : (imx415_do_start_stream bus s).1 ≠ 0) :
    (imx415_s_stream bus s true).1 = (imx415_do_start_stream bus s).1 ∧
    (imx415_s_stream bus s true).2.1 = s ∧
    (imx415_s_stream bus s true).2.1.streaming = false ∧
    ((imx415_write_array bus imx415_common_regs).1 ≠ 0 →
      (imx415_s_stream bus s true).1 = (imx415_write_array bus imx415_common_regs).1) ∧
    ((imx415_write_array bus imx415_common_regs).1 = 0 →
      (imx415_write_array bus s.cur_mode.reg_list).1 ≠ 0 →
      (imx415_s_stream bus s true).1 = (imx415_write_array bus s.cur_mode.reg_list).1) ∧
    ((imx415_write_array bus imx415_common_regs).1 = 0 →
      (imx415_write_array bus s.cur_mode.reg_list).1 = 0 →
      (imx415_s_stream bus s true).1 = bus.writeRet IMX415_REG_STANDBY 0) := by
  have hs : imx415_s_stream bus s true =
      ((imx415_do_start_stream bus s).1, s, (imx415_do_start_stream bus s).2) := by
    simp [imx415_s_stream, h1, h3, Int.not_lt.mpr h2]
  refine ⟨by rw [hs], by rw [hs], by rw [hs]; exact h1, fun hcmn => ?_, fun hc0 hm => ?_,
    fun hc0 hm0 => ?_⟩
  · rw [hs]
    simp [imx415_do_start_stream, hcmn]
  · rw [hs]
    simp [imx415_do_start_stream, hc0, hm]
  · rw [hs]
    simp [imx415_do_start_stream, imx415_write_reg, hc0, hm0]

/-- Witness for C6: with every write failing, start from standby returns -EIO
and the session is unchanged. -/
theorem start_stream_failure_keeps_standby_witness :
    (imx415_s_stream busFail s0 true).1 = -5 ∧
    (imx415_s_stream busFail s0 true).2.1 = s0 := by
  have h := start_stream_failure_keeps_standby busFail s0 (by decide) (by decide) (by decide)
  exact ⟨h.1.trans (by decide), h.2.1⟩

/-- C10: when the initial read of the flip register fails, the flip setters
return the read's error and issue no write at all; when the read succeeds,
the single write they issue goes to the flip register and changes only the
targeted bit (bit 0 for mirror, bit 1 for flip) of the read-back byte. -/
theorem flip_read_fail_no_write (bus : Bus) (s : Imx415) (v : Nat)
    (hp : s.powered = true) :
    (bus.readRet IMX415_FLIP_REG ≠ 0 →
      imx415_set_ctrl bus s CtrlId.HFLIP v = (bus.readRet IMX415_FLIP_REG, s, []) ∧
      imx415_set_ctrl bus s CtrlId.VFLIP v = (bus.readRet IMX415_FLIP_REG, s, [])) ∧
    (bus.readRet IMX415_FLIP_REG = 0 →
      ∀ w ∈ (imx415_set_ctrl bus s CtrlId.HFLIP v).2.2,
        w.1 = IMX415_FLIP_REG ∧ w.2 &&& 1 = (if v ≠ 0 then 1 else 0) ∧
        w.2 >>> 1 = (bus.readVal IMX415_FLIP_REG % 256) >>> 1) ∧
    (bus.readRet IMX415_FLIP_REG = 0 →
      ∀ w ∈ (imx415_set_ctrl bus s CtrlId.VFLIP v).2.2,
        w.1 = IMX415_FLIP_REG ∧ w.2 &&& 2 = (if v ≠ 0 then 2 else 0) ∧
        w.2 &&& 1 = (bus.readVal IMX415_FLIP_REG % 256) &&& 1 ∧
        w.2 >>> 2 = (bus.readVal IMX415_FLIP_REG % 256) >>> 2) := by
  have hlt : bus.readVal IMX415_FLIP_REG % 256 < 256 := Nat.mod_lt _ (by decide)
  obtain ⟨ha, hb, hc1, hd⟩ := hflip_bit_facts _ hlt
  obtain ⟨va, vb, vc, vd, ve, vf⟩ := vflip_bit_facts _ hlt
  refine ⟨fun hr => ?_, fun hr => ?_, fun hr => ?_⟩
  · constructor <;> simp [imx415_set_ctrl, imx415_read_reg, imx415_write_reg, hp, hr]
  · by_cases hvz : v ≠ 0 <;>
      simp [imx415_set_ctrl, imx415_read_reg, imx415_write_reg, hp, hr, hvz,
        IMX415_MIRROR_BIT_MASK, ha, hb, hc1, hd]
  · by_cases hvz : v ≠ 0 <;>
      simp [imx415_set_ctrl, imx415_read_reg, imx415_write_reg, hp, hr, hvz,
        IMX415_FLIP_BIT_MASK, va, vb, vc, vd, ve, vf]

/-- Witness for C10: a failing flip-register read makes the mirror setter
return -EIO without issuing any write. -/
theorem flip_read_fail_no_write_witness :
    imx415_set_ctrl busReadFail s0 CtrlId.HFLIP 1 = (-5, s0, []) := by
  have h := (flip_read_fail_no_write busReadFail s0 1 (by decide)).1 (by decide)
  exact h.1.trans (by decide)

/-- C8: applying a register table writes the pre-sentinel entries in table
order as single-byte writes; if they all succeed the result is 0 and exactly
the pre-sentinel entries were written; if one fails first, the writes issued
are exactly the entries up to and including it and its error is returned; the
sentinel address is never written. -/
theorem write_array_stops_at_first_failure (bus : Bus) (regs : List Regval) :
    (∀ w ∈ (imx415_write_array bus regs).2, w.1 ≠ REG_NULL) ∧
    ((∀ r ∈ regs.takeWhile (fun r => decide (r.reg ≠ REG_NULL)),
        bus.writeRet r.reg r.val = 0) →
      (imx415_write_array bus regs).1 = 0 ∧
      (imx415_write_array bus regs).2 =
        (regs.takeWhile (fun r => decide (r.reg ≠ REG_NULL))).map
          (fun r => (r.reg, r.val))) ∧
    (∀ pre r1 rest1,
      regs.takeWhile (fun r => decide (r.reg ≠ REG_NULL)) = pre ++ r1 :: rest1 →
      (∀ r ∈ pre, bus.writeRet r.reg r.val = 0) →
      bus.writeRet r1.reg r1.val ≠ 0 →
      (imx415_write_array bus regs).1 = bus.writeRet r1.reg r1.val ∧
      (imx415_write_array bus regs).2 =
        (pre ++ [r1]).map (fun r => (r.reg, r.val))) := by
  induction regs with
  | nil =>
      refine ⟨by simp [imx415_write_array], fun _ => by simp [imx415_write_array],
        fun pre r1 rest1 hsplit _ _ => ?_⟩
      cases pre <;> simp at hsplit
  | cons r rest ih =>
      by_cases hnull : r.reg = REG_NULL
      · refine ⟨by simp [imx415_write_array, hnull],
          fun _ => by simp [imx415_write_array, hnull],
          fun pre r1 rest1 hsplit _ _ => ?_⟩
        rw [List.takeWhile_cons] at hsplit
        simp [hnull] at hsplit
      · have htw : (r :: rest).takeWhile (fun r => decide (r.reg ≠ REG_NULL)) =
            r :: rest.takeWhile (fun r => decide (r.reg ≠ REG_NULL)) := by
          rw [List.takeWhile_cons]
          simp [hnull]
        by_cases hw : bus.writeRet r.reg r.val = 0
        · have harr : imx415_write_array bus (r :: rest) =
              ((imx415_write_array bus rest).1,
                (r.reg, r.val) :: (imx415_write_array bus rest).2) := by
            simp [imx415_write_array, hnull, imx415_write_reg, hw]
          refine ⟨?_, fun hall => ?_, fun pre r1 rest1 hsplit hzero hfail => ?_⟩
          · rw [harr]
            intro w hw'
            rcases List.mem_cons.mp hw' with h | h
            · rw [h]
              exact hnull
            · exact ih.1 w h
          · rw [htw] at hall
            have hhead := hall r (List.mem_cons_self r _)
            have htail : ∀ x ∈ rest.takeWhile (fun r => decide (r.reg ≠ REG_NULL)),
                bus.writeRet x.reg x.val = 0 :=
              fun x hx => hall x (List.mem_cons_of_mem r hx)
            obtain ⟨hr1, hr2⟩ := ih.2.1 htail
            rw [harr, htw]
            simp [hr1, hr2]
          · rw [htw] at hsplit
            cases pre with
            | nil =>
                rw [List.nil_append] at hsplit
                injection hsplit with har hsp
                exact absurd (har ▸ hw) hfail
            | cons a pre' =>
                rw [List.cons_append] at hsplit
                injection hsplit with har hsp
                have hzero' : ∀ x ∈ pre', bus.writeRet x.reg x.val = 0 :=
                  fun x hx => hzero x (List.mem_cons_of_mem a hx)
                obtain ⟨hr1, hr2⟩ := ih.2.2 pre' r1 rest1 hsp hzero' hfail
                rw [harr]
                refine ⟨hr1, ?_⟩
                rw [hr2, har]
                simp
        · have harr : imx415_write_array bus (r :: rest) =
              (bus.writeRet r.reg r.val, [(r.reg, r.val)]) := by
            simp [imx415_write_array, hnull, imx415_write_reg, hw]
          refine ⟨?_, fun hall => ?_, fun pre r1 rest1 hsplit hzero hfail => ?_⟩
          · rw [harr]
            intro w hw'
            rcases List.mem_singleton.mp hw' with h
            rw [h]
            exact hnull
          · rw [htw] at hall
            exact absurd (hall r (List.mem_cons_self r _)) hw
          · rw [htw] at hsplit
            cases pre with
            | nil =>
                rw [List.nil_append] at hsplit
                injection hsplit with har hsp
                rw [harr, har]
                simp
            | cons a pre' =>
                rw [List.cons_append] at hsplit
                injection hsplit with har hsp
                exact absurd (har.symm ▸ hzero a (List.mem_cons_self a _)) hw

/-- Witness for C8: on an all-failing transport, a table of one payload entry
plus the sentinel yields -EIO with exactly the payload write issued. -/
theorem write_array_stops_at_first_failure_witness :
    (imx415_write_array busFail regsW).1 = -5 ∧
    (imx415_write_array busFail regsW).2 = [(0x3000, 1)] := by
  have h := (write_array_stops_at_first_failure busFail regsW).2.2
      [] ⟨0x3000, 1⟩ [] (by decide) (by simp) (by decide)
  exact ⟨h.1.trans (by decide), h.2.trans (by decide)⟩

/-- Lookup past the end of the list yields nothing. -/
lemma nthMode_length_le : ∀ (l : List ImxMode) (n : Nat), l.length ≤ n → nthMode l n = none := by
  intro l
  induction l with
  | nil => intro n _; rfl
  | cons a rest ih =>
      intro n hn
      cases n with
      | zero => simp at hn
      | succ k =>
          have hk : rest.length ≤ k := by
            simp only [List.length_cons] at hn
            omega
          exact ih k hk

/-- A successful lookup is within bounds. -/
lemma nthMode_lt_length (l : List ImxMode) (n : Nat) (m : ImxMode)
    (h : nthMode l n = some m) : n < l.length := by
  by_contra hn
  rw [nthMode_length_le l n (by omega)] at h
  simp at h

/-- Lookup inside the left part of an append. -/
lemma nthMode_append_left : ∀ (l l' : List ImxMode) (n : Nat), n < l.length →
    nthMode (l ++ l') n = nthMode l n := by
  intro l
  induction l with
  | nil => intro l' n h; simp at h
  | cons a rest ih =>
      intro l' n h
      cases n with
      | zero => rfl
      | succ k =>
          have hk : k < rest.length := by
            simp only [List.length_cons] at h
            omega
          exact ih l' k hk

/-- Lookup exactly at the seam of an append. -/
lemma nthMode_append_middle : ∀ (l : List ImxMode) (m : ImxMode) (l' : List ImxMode),
    nthMode (l ++ m :: l') l.length = some m := by
  intro l
  induction l with
  | nil => intro m l'; rfl
  | cons a rest ih => intro m l'; exact ih m l'

/-- A successful lookup is a member. -/
lemma nthMode_mem : ∀ (l : List ImxMode) (n : Nat) (m : ImxMode),
    nthMode l n = some m → m ∈ l := by
  intro l
  induction l with
  | nil => intro n m h; simp [nthMode] at h
  | cons a rest ih =>
      intro n m h
      cases n with
      | zero =>
          injection h with h
          subst h
          exact List.mem_cons_self a rest
      | succ k => exact List.mem_cons_of_mem a (ih k m h)


/-- Under valid u32 dimensions whose coordinate differences keep the 32-bit
computation from wrapping, the driver distance is exactly the Manhattan
distance. -/
lemma reso_dist_eq_manhattan (m : ImxMode) (f : Framefmt)
    (hw : m.width < 4294967296) (hh : m.height < 4294967296)
    (hfw : f.width < 4294967296) (hfh : f.height < 4294967296)
    (hsmall : ((m.width : Int) - f.width).natAbs + ((m.height : Int) - f.height).natAbs
      < 2147483648) :
    imx415_get_reso_dist m f =
      ((((m.width : Int) - f.width).natAbs + ((m.height : Int) - f.height).natAbs : Nat) : Int) := by
  simp only [imx415_get_reso_dist, add32, abs32, s32wrap, s32ofU32, u32sub]
  split_ifs <;> omega

/-- Main induction for the best-fit loop: from a state satisfying `DistInv`
over the scanned prefix, provided no remaining matching entry's distance
collides with the -1 sentinel, the loop returns an index of a format-matching
entry of minimal driver distance that is the last among the minimizers (first
part), and returns `best` untouched when nothing matches at all (second
part). -/
lemma find_go_spec (f : Framefmt) :
    ∀ (rest pre : List ImxMode) (best : Nat) (bd : Int),
      DistInv f pre best bd →
      (∀ x ∈ rest, x.bus_fmt = f.code → imx415_get_reso_dist x f ≠ -1) →
      ((bd ≠ -1 ∨ ∃ m ∈ rest, m.bus_fmt = f.code) →
        ∃ mr, nthMode (pre ++ rest)
            (imx415_find_best_fit_go f rest pre.length best bd) = some mr ∧
          mr.bus_fmt = f.code ∧
          ∀ j mj, nthMode (pre ++ rest) j = some mj → mj.bus_fmt = f.code →
            imx415_get_reso_dist mr f ≤ imx415_get_reso_dist mj f ∧
            (imx415_get_reso_dist mj f = imx415_get_reso_dist mr f →
              j ≤ imx415_find_best_fit_go f rest pre.length best bd)) ∧
      (bd = -1 → (∀ m ∈ rest, m.bus_fmt ≠ f.code) →
        imx415_find_best_fit_go f rest pre.length best bd = best) := by
  intro rest
  induction rest with
  | nil =>
      intro pre best bd hInv _
      constructor
      · intro hex
        have hbd : bd ≠ -1 := by
          rcases hex with h | ⟨m, hm, _⟩
          · exact h
          · exact absurd hm (List.not_mem_nil m)
        simp only [DistInv, if_neg hbd] at hInv
        obtain ⟨mb, hnth, hmatch, hdist, hall⟩ := hInv
        rw [List.append_nil]
        refine ⟨mb, ?_, hmatch, ?_⟩
        · simpa [imx415_find_best_fit_go] using hnth
        · intro j mj hj hmj
          obtain ⟨hle, htie⟩ := hall j mj hj hmj
          constructor
          · rw [hdist]
            exact hle
          · intro heq
            simp only [imx415_find_best_fit_go]
            exact htie (heq.trans hdist)
      · intro _ _
        rfl
  | cons m rest ih =>
      intro pre best bd hInv hne
      have hlen : pre.length + 1 = (pre ++ [m]).length := by simp
      have hne' : ∀ x ∈ rest, x.bus_fmt = f.code → imx415_get_reso_dist x f ≠ -1 :=
        fun x hx => hne x (List.mem_cons_of_mem m hx)
      by_cases hbd : bd = -1
      · subst hbd
        simp only [DistInv, if_pos rfl] at hInv
        by_cases hm : m.bus_fmt = f.code
        · have hmne : imx415_get_reso_dist m f ≠ -1 :=
            hne m (List.mem_cons_self m rest) hm
          have hstep : imx415_find_best_fit_go f (m :: rest) pre.length best (-1) =
              imx415_find_best_fit_go f rest (pre.length + 1) pre.length
                (imx415_get_reso_dist m f) := by
            simp [imx415_find_best_fit_go, hm]
          have hInv' : DistInv f (pre ++ [m]) pre.length (imx415_get_reso_dist m f) := by
            simp only [DistInv, if_neg hmne]
            refine ⟨m, nthMode_append_middle pre m [], hm, rfl, ?_⟩
            intro j mj hj hmj
            rcases Nat.lt_trichotomy j pre.length with hlt | heq | hgt
            · rw [nthMode_append_left pre [m] j hlt] at hj
              exact absurd hmj (hInv mj (nthMode_mem pre j mj hj))
            · subst heq
              rw [nthMode_append_middle pre m []] at hj
              injection hj with hj
              subst hj
              exact ⟨le_refl _, fun _ => le_refl _⟩
            · have hno : nthMode (pre ++ [m]) j = none :=
                nthMode_length_le _ _ (by simp; omega)
              rw [hno] at hj
              simp at hj
          obtain ⟨hA, hB⟩ := ih (pre ++ [m]) pre.length (imx415_get_reso_dist m f)
            hInv' hne'
          constructor
          · intro _
            have h' := hA (Or.inl hmne)
            rw [hstep, hlen]
            simpa [List.append_assoc] using h'
          · intro _ hnone
            exact absurd hm (hnone m (List.mem_cons_self m rest))
        · have hstep : imx415_find_best_fit_go f (m :: rest) pre.length best (-1) =
              imx415_find_best_fit_go f rest (pre.length + 1) best (-1) := by
            simp [imx415_find_best_fit_go, hm]
          have hInv' : DistInv f (pre ++ [m]) best (-1) := by
            simp only [DistInv, if_pos rfl]
            intro x hx
            rcases List.mem_append.mp hx with h | h
            · exact hInv x h
            · have hxm := List.mem_singleton.mp h
              subst hxm
              exact hm
          obtain ⟨hA, hB⟩ := ih (pre ++ [m]) best (-1) hInv' hne'
          constructor
          · intro hex
            rcases hex with hd | ⟨m', hm', hmatch⟩
            · exact absurd rfl hd
            · rcases List.mem_cons.mp hm' with he | he
              · exact absurd (he ▸ hmatch) hm
              · have h' := hA (Or.inr ⟨m', he, hmatch⟩)
                rw [hstep, hlen]
                simpa [List.append_assoc] using h'
          · intro _ hnone
            have h' := hB rfl (fun x hx => hnone x (List.mem_cons_of_mem m hx))
            rw [hstep, hlen]
            exact h'
      · simp only [DistInv, if_neg hbd] at hInv
        obtain ⟨mb, hnthb, hmatchb, hdistb, hall⟩ := hInv
        by_cases hm : m.bus_fmt = f.code
        · by_cases hd : imx415_get_reso_dist m f ≤ bd
          · have hmne : imx415_get_reso_dist m f ≠ -1 :=
              hne m (List.mem_cons_self m rest) hm
            have hstep : imx415_find_best_fit_go f (m :: rest) pre.length best bd =
                imx415_find_best_fit_go f rest (pre.length + 1) pre.length
                  (imx415_get_reso_dist m f) := by
              simp [imx415_find_best_fit_go, hm, hd]
            have hInv' : DistInv f (pre ++ [m]) pre.length (imx415_get_reso_dist m f) := by
              simp only [DistInv, if_neg hmne]
              refine ⟨m, nthMode_append_middle pre m [], hm, rfl, ?_⟩
              intro j mj hj hmj
              rcases Nat.lt_trichotomy j pre.length with hlt | heq | hgt
              · rw [nthMode_append_left pre [m] j hlt] at hj
                obtain ⟨hle, _⟩ := hall j mj hj hmj
                exact ⟨le_trans hd hle, fun _ => Nat.le_of_lt hlt⟩
              · subst heq
                rw [nthMode_append_middle pre m []] at hj
                injection hj with hj
                subst hj
                exact ⟨le_refl _, fun _ => le_refl _⟩
              · have hno : nthMode (pre ++ [m]) j = none :=
                  nthMode_length_le _ _ (by simp; omega)
                rw [hno] at hj
                simp at hj
            obtain ⟨hA, hB⟩ := ih (pre ++ [m]) pre.length (imx415_get_reso_dist m f)
              hInv' hne'
            constructor
            · intro _
              have h' := hA (Or.inl hmne)
              rw [hstep, hlen]
              simpa [List.append_assoc] using h'
            · intro hbd2 _
              exact absurd hbd2 hbd
          · have hstep : imx415_find_best_fit_go f (m :: rest) pre.length best bd =
                imx415_find_best_fit_go f rest (pre.length + 1) best bd := by
              simp [imx415_find_best_fit_go, hbd, hd]
            have hInv' : DistInv f (pre ++ [m]) best bd := by
              simp only [DistInv, if_neg hbd]
              have hblt : best < pre.length := nthMode_lt_length pre best mb hnthb
              refine ⟨mb, ?_, hmatchb, hdistb, ?_⟩
              · rw [nthMode_append_left pre [m] best hblt]
                exact hnthb
              · intro j mj hj hmj
                rcases Nat.lt_trichotomy j pre.length with hlt | heq | hgt
                · rw [nthMode_append_left pre [m] j hlt] at hj
                  exact hall j mj hj hmj
                · subst heq
                  rw [nthMode_append_middle pre m []] at hj
                  injection hj with hj
                  subst hj
                  refine ⟨le_of_lt (not_le.mp hd), fun heq2 => ?_⟩
                  exact absurd heq2 (ne_of_gt (not_le.mp hd))
                · have hno : nthMode (pre ++ [m]) j = none :=
                    nthMode_length_le _ _ (by simp; omega)
                  rw [hno] at hj
                  simp at hj
            obtain ⟨hA, hB⟩ := ih (pre ++ [m]) best bd hInv' hne'
            constructor
            · intro _
              have h' := hA (Or.inl hbd)
              rw [hstep, hlen]
              simpa [List.append_assoc] using h'
            · intro hbd2 _
              exact absurd hbd2 hbd
        · have hstep : imx415_find_best_fit_go f (m :: rest) pre.length best bd =
              imx415_find_best_fit_go f rest (pre.length + 1) best bd := by
            simp [imx415_find_best_fit_go, hm]
          have hInv' : DistInv f (pre ++ [m]) best bd := by
            simp only [DistInv, if_neg hbd]
            have hblt : best < pre.length := nthMode_lt_length pre best mb hnthb
            refine ⟨mb, ?_, hmatchb, hdistb, ?_⟩
            · rw [nthMode_append_left pre [m] best hblt]
              exact hnthb
            · intro j mj hj hmj
              rcases Nat.lt_trichotomy j pre.length with hlt | heq | hgt
              · rw [nthMode_append_left pre [m] j hlt] at hj
                exact hall j mj hj hmj
              · subst heq
                rw [nthMode_append_middle pre m []] at hj
                injection hj with hj
                subst hj
                exact absurd hmj hm
              · have hno : nthMode (pre ++ [m]) j = none :=
                  nthMode_length_le _ _ (by simp; omega)
                rw [hno] at hj
                simp at hj
          obtain ⟨hA, hB⟩ := ih (pre ++ [m]) best bd hInv' hne'
          constructor
          · intro _
            have h' := hA (Or.inl hbd)
            rw [hstep, hlen]
            simpa [List.append_assoc] using h'
          · intro hbd2 _
            exact absurd hbd2 hbd

/-- C2 counterexample, two parts.  Tie-break: on a two-entry catalog whose
entries both match the requested format and lie at the same distance, the
search returns index 1, not the lowest index 0 — the
`dist <= cur_best_fit_dist` comparison lets a later tying entry replace an
earlier one.  Wrap: for the u32-valid request width 4294967295, entry 1 of
`[cexWide0, cexWide1]` has the strictly smaller Manhattan distance, yet the
driver returns entry 0, because the u32 difference 0 - 4294967295 wraps to 1
before `abs()` — so the program does not minimize Manhattan distance on
wrapped inputs. -/
theorem find_best_fit_tie_prefers_last_cex :
    (cexA.bus_fmt = cexFmt.code ∧ cexB.bus_fmt = cexFmt.code ∧
     imx415_get_reso_dist cexA cexFmt = imx415_get_reso_dist cexB cexFmt ∧
     imx415_find_best_fit cexCatalog cexFmt = 1) ∧
    (cexWide0.bus_fmt = cexWideFmt.code ∧ cexWide1.bus_fmt = cexWideFmt.code ∧
     ((cexWide1.width : Int) - cexWideFmt.width).natAbs
         + ((cexWide1.height : Int) - cexWideFmt.height).natAbs
       < ((cexWide0.width : Int) - cexWideFmt.width).natAbs
         + ((cexWide0.height : Int) - cexWideFmt.height).natAbs ∧
     imx415_find_best_fit [cexWide0, cexWide1] cexWideFmt = 0) := by
  decide

/-- C2 (amended): whenever some catalog entry matches the requested format,
and the dimensions involved are valid u32 values whose per-entry Manhattan
distance from the request stays below 2^31 (so the driver's 32-bit distance
computation does not wrap), the search returns the index of a format-matching
entry of minimal Manhattan distance; among entries tying on that distance it
returns the one with the highest catalog index (every tying index j satisfies
j ≤ result). -/
theorem find_best_fit_min_dist_last_tie (catalog : List ImxMode) (f : Framefmt)
    (hfw : f.width < 4294967296) (hfh : f.height < 4294967296)
    (hcat : ∀ m ∈ catalog, m.width < 4294967296 ∧ m.height < 4294967296 ∧
      ((m.width : Int) - f.width).natAbs + ((m.height : Int) - f.height).natAbs
        < 2147483648)
    (h : ∃ m ∈ catalog, m.bus_fmt = f.code) :
    ∃ mr, nthMode catalog (imx415_find_best_fit catalog f) = some mr ∧
      mr.bus_fmt = f.code ∧
      ∀ j mj, nthMode catalog j = some mj → mj.bus_fmt = f.code →
        ((mr.width : Int) - f.width).natAbs + ((mr.height : Int) - f.height).natAbs
          ≤ ((mj.width : Int) - f.width).natAbs + ((mj.height : Int) - f.height).natAbs ∧
        (((mj.width : Int) - f.width).natAbs + ((mj.height : Int) - f.height).natAbs
            = ((mr.width : Int) - f.width).natAbs + ((mr.height : Int) - f.height).natAbs →
          j ≤ imx415_find_best_fit catalog f) := by
  have hInv : DistInv f [] 0 (-1) := by
    simp only [DistInv, if_pos rfl]
    intro m hm
    exact absurd hm (List.not_mem_nil m)
  have hne : ∀ x ∈ catalog, x.bus_fmt = f.code → imx415_get_reso_dist x f ≠ -1 := by
    intro x hx _
    obtain ⟨h1, h2, h3⟩ := hcat x hx
    rw [reso_dist_eq_manhattan x f h1 h2 hfw hfh h3]
    omega
  have h' := (find_go_spec f catalog [] 0 (-1) hInv hne).1 (Or.inr h)
  simp only [List.nil_append, List.length_nil] at h'
  obtain ⟨mr, hmr, hmatch, hmin⟩ := h'
  have hmrmem := nthMode_mem catalog _ mr hmr
  obtain ⟨hw1, hh1, hs1⟩ := hcat mr hmrmem
  have hmrd := reso_dist_eq_manhattan mr f hw1 hh1 hfw hfh hs1
  refine ⟨mr, by simpa [imx415_find_best_fit] using hmr, hmatch, ?_⟩
  intro j mj hj hmj
  have hmjmem := nthMode_mem catalog j mj hj
  obtain ⟨hw2, hh2, hs2⟩ := hcat mj hmjmem
  have hmjd := reso_dist_eq_manhattan mj f hw2 hh2 hfw hfh hs2
  obtain ⟨hle, htie⟩ := hmin j mj hj hmj
  rw [hmrd, hmjd] at hle
  constructor
  · exact_mod_cast hle
  · intro heq
    have heqd : imx415_get_reso_dist mj f = imx415_get_reso_dist mr f := by
      rw [hmrd, hmjd]
      exact_mod_cast heq
    simpa [imx415_find_best_fit] using htie heqd

/-- Witness for C2's amended statement on the small tie catalog, whose
dimensions all satisfy the no-wrap hypotheses. -/
theorem find_best_fit_min_dist_last_tie_witness :
    ∃ mr, nthMode cexCatalog (imx415_find_best_fit cexCatalog cexFmt) = some mr ∧
      mr.bus_fmt = cexFmt.code := by
  obtain ⟨mr, h1, h2, _⟩ := find_best_fit_min_dist_last_tie cexCatalog cexFmt
    (by decide) (by decide) (by decide) (by decide)
  exact ⟨mr, h1, h2⟩

end IMX415
